import Mathlib

/-!
Verification of the kdlc compiler front end (the KDL IDL compiler).

Each definition below is a shallow embedding of a function of the Go source,
named after its source symbol, with the source file and line range noted in
its doc comment.  Diagnostics recorded through the trace context are modeled
as values of the `Diag` enumeration accumulated in lists, in emission order.
Go panics and normal returns are modeled with `GoOutcome`.  Loops of the
source that have no syntactic bound are modeled with an explicit fuel
parameter: a result of `none` means the loop has not exited after that many
iterations.
-/

namespace Kdlc

/-- Diagnostic messages recorded via trace.ErrorAt, one constructor per
distinct message string of the source (the full text is given in comments
at each use site). -/
inductive Diag where
  | keyNotPresentInItem
  | listMapItemsMustBeStructs
  | unionKeyMustBeUnionTag
  | kindsMayNotBeListMapItems
  | wrapperTypesMayNotBeListMapItems
  | enumTypesMayNotBeListMapItems
  | referenceToUnknownType
  | referenceToUnknownGroupVersion
  | referenceToNonExistantType
  | unresolvableIdentifier
  | cannotHaveTwoTypes
  | cannotSetOptionalTwice
  | cannotSetCreateOnlyTwice
  | cannotSetValidatesTwice
  | unknownTypeModifier
  | unknownValidator
  | stringNewline
  | unterminatedString
  | badUEscapeChar
  | badEscape
  | unknownMarker
  | unknownMarkerParameter
  | mismatchedMarkerValue
  | typeValuesNotSupported
  | cannotSerializeTypeValues
  | expectedToken
  deriving DecidableEq, Repr

/-- Go panics versus normal returns: `panics m` models `panic(m)` reaching
the caller, `ok v` a normal return of `v`. -/
inductive GoOutcome (α : Type) where
  | ok : α → GoOutcome α
  | panics : String → GoOutcome α
  deriving DecidableEq, Repr

/-- `typecheck.GroupVersion` (src/kdlc/passes/typecheck/graph.go:19-21). -/
structure GroupVer where
  group : String
  version : String
  deriving DecidableEq, Repr

/-- `typecheck.Name` (src/kdlc/passes/typecheck/graph.go:40-43): a
group-version together with a fully qualified type name. -/
structure Name where
  gv : GroupVer
  fullName : String
  deriving DecidableEq, Repr

/-- An `irt.Struct` reduced to what the list-map checks read from it: the
names of its fields (`field.Name` / `field.Name.Name`). -/
structure StructT where
  fields : List String
  deriving DecidableEq, Repr

/-- An `irt.Union` / `ast.Union` reduced to what the list-map checks read:
its tag, the untagged flag, and its variant names. -/
structure UnionT where
  tag : String
  untagged : Bool
  variants : List String
  deriving DecidableEq, Repr

/-- `typecheck.Terminal` (src/kdlc/passes/typecheck/graph.go:56-76):
wrapper, struct, union, enum or kind. -/
inductive Terminal where
  | wrapper : Terminal
  | struct : StructT → Terminal
  | union : UnionT → Terminal
  | enum : Terminal
  | kind : Terminal
  deriving DecidableEq, Repr

/-- `typecheck.MergedNode` (src/kdlc/passes/typecheck/graph.go:109-113):
per-group-version maps of reference aliases and terminals, modeled as
association lists. -/
structure MergedNode where
  references : List (Name × Name)
  terminals : List (Name × Terminal)
  deriving DecidableEq, Repr

/-- `typecheck.Graph.GVToNode` (src/kdlc/passes/typecheck/graph.go:137-147),
the map from group-version to merged node. -/
structure Graph where
  gvToNode : List (GroupVer × MergedNode)
  deriving DecidableEq, Repr

/-- The reference-chasing loop of `Graph.TerminalFor`
(src/kdlc/passes/typecheck/graph.go:337-341):
`for next, hasNext := node.References[dest]; hasNext; ... { dest = next }`.
The loop has no bound in the source; `none` means it has not exited after
`fuel` iterations. -/
def chaseRefs (refs : List (Name × Name)) : Nat → Name → Option Name
  | 0, _ => none
  | fuel + 1, current =>
    match refs.lookup current with
    | none => some current
    | some next => chaseRefs refs fuel next

/-- Result of terminal resolution: the terminal found (if any) and the
diagnostics recorded on the way. -/
structure TermResult where
  terminal : Option Terminal
  diags : List Diag
  deriving DecidableEq, Repr

/-- `Graph.TerminalFor` (src/kdlc/passes/typecheck/graph.go:326-349):
look up the merged node for the group-version (missing: diagnostic
"reference to unkown group-version", nil result), follow references until
none is left, then look up the terminal (missing: diagnostic
"reference to unknown type", nil result).  `none` models the unbounded
reference loop still running after `fuel` steps. -/
def TerminalFor (g : Graph) (fuel : Nat) (name : Name) : Option TermResult :=
  match g.gvToNode.lookup name.gv with
  | none => some ⟨none, [Diag.referenceToUnknownGroupVersion]⟩
  | some node =>
    match chaseRefs node.references fuel name with
    | none => none
    | some dest =>
      match node.terminals.lookup dest with
      | none => some ⟨none, [Diag.referenceToUnknownType]⟩
      | some t => some ⟨some t, []⟩

/-- The key loop shared by both list-map checkers: for each key not among
the field names of the item struct, record
"key of list-map not present in item". -/
def structKeyDiags (s : StructT) (keyField : List String) : List Diag :=
  keyField.filterMap fun key =>
    if key ∈ s.fields then none else some Diag.keyNotPresentInItem

/-- `typecheck.checkListMap` (src/kdlc/passes/typecheck/checks.go:39-64):
resolve the item terminal via `TerminalFor`; a struct item has every key
checked against its fields; every other item (union, enum, kind, wrapper,
and the nil terminal of a failed resolution) falls into the `default`
branch and records "list-map items must be structs". -/
def checkListMap (g : Graph) (fuel : Nat) (items : Name) (keyField : List String) :
    Option (List Diag) :=
  (TerminalFor g fuel items).map fun res =>
    match res.terminal with
    | some (Terminal.struct s) => res.diags ++ structKeyDiags s keyField
    | _ => res.diags ++ [Diag.listMapItemsMustBeStructs]

/-- `ast.TerminalType` (src/kdlc/parser/ast/resolved.go:83-101), the
terminal classification used by the AST-level type graph: alias (newtype
over a non-reference), struct, union, enum, kind. -/
inductive ATerminal where
  | aliasT : ATerminal
  | struct : StructT → ATerminal
  | union : UnionT → ATerminal
  | enum : ATerminal
  | kind : ATerminal
  deriving DecidableEq, Repr

/-- The AST-level `typegraph` of the passes package (second unit of
src/kdlc/passes/fromast/nested.go, lines 225-229): reference aliases,
terminals, and external graphs for imported group-versions. -/
inductive ATypegraph where
  | mk : List (Name × Name) → List (Name × ATerminal) →
      List (GroupVer × ATypegraph) → ATypegraph

/-- Reference aliases of an AST-level type graph. -/
def ATypegraph.references : ATypegraph → List (Name × Name)
  | ATypegraph.mk r _ _ => r

/-- Terminals of an AST-level type graph. -/
def ATypegraph.terminals : ATypegraph → List (Name × ATerminal)
  | ATypegraph.mk _ t _ => t

/-- External (imported) graphs of an AST-level type graph, keyed by
group-version. -/
def ATypegraph.externals : ATypegraph → List (GroupVer × ATypegraph)
  | ATypegraph.mk _ _ e => e

/-- `typegraph.terminalFor` (second unit of
src/kdlc/passes/fromast/nested.go, lines 241-265): follow references until
none is left; then look up the terminal; if missing, delegate to the
external graph of the current group-version if there is one, else record
"reference to non-existant type" and return nil.  As in the source the
reference loop has no bound; `none` means it is still running after `fuel`
steps. -/
def aTerminalFor : Nat → ATypegraph → Name → Option (Option ATerminal × List Diag)
  | 0, _, _ => none
  | fuel + 1, g, current =>
    match g.references.lookup current with
    | some next => aTerminalFor fuel g next
    | none =>
      match g.terminals.lookup current with
      | some t => some (some t, [])
      | none =>
        match g.externals.lookup current.gv with
        | some ext => aTerminalFor fuel ext current
        | none => some (none, [Diag.referenceToNonExistantType])

/-- `checker.validListMap` (second unit of src/kdlc/passes/fromast/nested.go,
lines 423-464): resolve the item terminal; nil terminal returns with only
the resolution diagnostics; a union item records "for unions to be used as
list-map items, the key must be the union tag" unless it is tagged and the
key list is exactly its tag; a struct item has every key checked against
its fields; kind, alias and enum items each record their dedicated
rejection message. -/
def validListMap (fuel : Nat) (g : ATypegraph) (items : Name) (keyField : List String) :
    Option (List Diag) :=
  (aTerminalFor fuel g items).map fun res =>
    match res.1 with
    | none => res.2
    | some (ATerminal.union u) =>
      res.2 ++
        (if u.untagged || keyField.length != 1 || keyField.head? != some u.tag then
          [Diag.unionKeyMustBeUnionTag]
        else [])
    | some (ATerminal.struct s) => res.2 ++ structKeyDiags s keyField
    | some ATerminal.kind => res.2 ++ [Diag.kindsMayNotBeListMapItems]
    | some ATerminal.aliasT => res.2 ++ [Diag.wrapperTypesMayNotBeListMapItems]
    | some ATerminal.enum => res.2 ++ [Diag.enumTypesMayNotBeListMapItems]

/-- `ast.TypeImport` (src/kdlc/parser/ast/file.go:59-64): a group-version
imported from a source path. -/
structure TypeImport where
  gv : GroupVer
  src : String
  deriving DecidableEq, Repr

/-- `ire.Partial_Dependency` as built by `toir.Imports`: the imported
group-version and the path it comes from. -/
structure Dependency where
  gv : GroupVer
  src : String
  deriving DecidableEq, Repr

/-- `toir.Imports` (src/kdlc/passes/toir/toir.go:96-114).  The source
iterates the Go map `imports.Types.Imports` with `range`; a Go map has no
specified iteration order, so the embedding receives the entries in the
iteration order of one particular run and builds one dependency entry (and
one source-map entry, in the same order) per element. -/
def irImports (importsInIterOrder : List (GroupVer × TypeImport)) : List Dependency :=
  importsInIterOrder.map fun gi => ⟨gi.1, gi.2.src⟩

/-- `Graph.BundleFor` (src/kdlc/passes/typecheck/graph.go:269-279).  The
source iterates the Go map `g.PathToNode` with `range`, appending one
virtual file per node; as with `irImports` the entry order is the map
iteration order of the run. -/
def BundleFor (pathToNodeInIterOrder : List (String × MergedNode)) :
    List (String × MergedNode) :=
  pathToNodeInIterOrder.map fun pn => (pn.1, pn.2)

/-- The trace context as `trace.ErrorAt` reads it
(src/kdlc/parser/trace/context.go): the only state consulted is the
full-input lookaside installed by `WithFullInput` (the trace stack is only
walked for printing and is not modeled).  There is no had-error flag
anywhere in the context. -/
structure TraceCtx where
  fullInput : Option String
  deriving DecidableEq, Repr

/-- `trace.ErrorAt` (src/kdlc/parser/trace/context.go:294-302): print the
message to stderr, then fetch the full input from the context; if none is
attached, `panic(msg)`; otherwise print the trace and return normally.  No
flag is flipped and no diagnostic is stored on the context. -/
def ErrorAt (ctx : TraceCtx) (msg : String) : GoOutcome Unit :=
  match ctx.fullInput with
  | none => GoOutcome.panics msg
  | some _ => GoOutcome.ok ()

/-- `irt.Primitive_Type` restricted to its ten named values
(ckdl-ir/types: STRING, LEGACYINT32, INT64, QUANTITY, TIME, DURATION,
BYTES, BOOL, LEGACYFLOAT64, INTORSTRING). -/
inductive Prim where
  | string
  | int32
  | int64
  | quantity
  | time
  | duration
  | bytes
  | bool
  | legacyFloat64
  | intOrString
  deriving DecidableEq, Repr

/-- `keyToPrimitive` (src/kdlc/parser/ast/depset.go:240-267): the key
names recognized as primitive types. -/
def keyToPrimitive (key : String) : Option Prim :=
  match key with
  | "string" => some Prim.string
  | "int32" => some Prim.int32
  | "int64" => some Prim.int64
  | "quantity" => some Prim.quantity
  | "time" => some Prim.time
  | "duration" => some Prim.duration
  | "bytes" => some Prim.bytes
  | "bool" => some Prim.bool
  | "dangerous-float64" => some Prim.legacyFloat64
  | "int-or-string" => some Prim.intOrString
  | _ => none

/-- `ast.Value` (src/kdlc/parser/ast/file.go:88-113): the tagged union of
source-level values. -/
inductive AValue where
  | stringV : String → AValue
  | numV : Int → AValue
  | boolV : Bool → AValue
  | listV : List AValue → AValue
  | structV : List (String × AValue) → AValue
  | fieldPathV : String → AValue
  | refTypeV : Option GroupVer → String → AValue
  | primTypeV : String → AValue
  | compoundTypeV : String → List (String × AValue) → AValue

/-- `ast.ResolvedType` (src/kdlc/parser/ast/resolved.go:13-31): the closed
set of core types a modifier list can produce.  The payloads of the
container cases (item and key/value types built by `modToList` and the
parameter switches) do not affect how many core types a list produces and
are not tracked here. -/
inductive RType where
  | primitive : Prim → RType
  | reference : Option GroupVer → String → RType
  | list : RType
  | set : RType
  | listMap : RType
  | primitiveMap : RType
  deriving DecidableEq, Repr

/-- `ast.Modifier`: either a keyish modifier (key name plus optional
parameter list) or a type-reference modifier
(src/kdlc/parser/ast/file.go / parser.parseModifier). -/
inductive Modifier where
  | keyish : String → Option (List (String × AValue)) → Modifier
  | refMod : Option GroupVer → String → Modifier

/-- `ast.ResolvedTypeInfo` (src/kdlc/parser/ast/resolved.go:59-76) reduced
to the state `updateTypeInfo` writes: optionality and default, the
create-only flag, the chosen core type, and whether a validates bag was
installed (its contents are orthogonal to the core-type count). -/
structure RTypeInfo where
  optional : Bool := false
  default : Option AValue := none
  createOnly : Bool := false
  type : Option RType := none
  validatesSet : Bool := false

/-- `setTypeFrom` (src/kdlc/parser/ast/depset.go:231-239): if a core type
is already present, record "cannot have two different types in the same
modifier list" — and then overwrite the type with the new one anyway. -/
def setTypeFrom (s : RTypeInfo) (typ : RType) : RTypeInfo × List Diag :=
  match s.type with
  | some _ => ({ s with type := some typ }, [Diag.cannotHaveTwoTypes])
  | none => ({ s with type := some typ }, [])

/-- Parameter lookup standing in for `validParameters`
(src/kdlc/parser/ast/depset.go:504-548); the parameter-level diagnostics
it produces (unknown, duplicate, missing parameter) never touch the core
type and are not modeled. -/
def lookupParam (params : Option (List (String × AValue))) (key : String) : Option AValue :=
  (params.getD []).lookup key

/-- `updateTypeInfo` (src/kdlc/parser/ast/depset.go:296-491): dispatch one
modifier into the resolved info.  A keyish modifier is first matched
against the primitive table, then against the compound and behavior names;
each type-producing branch goes through `setTypeFrom`, the behavior
branches (`optional`, `create-only`, `validates`) only set their flags and
duplicate diagnostics, unknown keys record "unknown type modifier", and
the TODO names `preserves-unknown-fields` and `embedded-kind` panic in the
source.  A reference modifier always goes through `setTypeFrom`. -/
def updateTypeInfo (info : RTypeInfo) (mod : Modifier) :
    GoOutcome (RTypeInfo × List Diag) :=
  match mod with
  | Modifier.keyish name params =>
    match keyToPrimitive name with
    | some p => GoOutcome.ok (setTypeFrom info (RType.primitive p))
    | none =>
      match name with
      | "list" => GoOutcome.ok (setTypeFrom info RType.list)
      | "list-map" => GoOutcome.ok (setTypeFrom info RType.listMap)
      | "set" => GoOutcome.ok (setTypeFrom info RType.set)
      | "simple-map" => GoOutcome.ok (setTypeFrom info RType.primitiveMap)
      | "optional" =>
        let dup : List Diag :=
          if info.optional then [Diag.cannotSetOptionalTwice] else []
        let info2 := { info with optional := true }
        match lookupParam params "default" with
        | some v => GoOutcome.ok ({ info2 with default := some v }, dup)
        | none => GoOutcome.ok (info2, dup)
      | "create-only" =>
        let dup : List Diag :=
          if info.createOnly then [Diag.cannotSetCreateOnlyTwice] else []
        GoOutcome.ok ({ info with createOnly := true }, dup)
      | "preserves-unknown-fields" => GoOutcome.panics "TODO"
      | "embedded-kind" => GoOutcome.panics "TODO"
      | "validates" =>
        let dup : List Diag :=
          if info.validatesSet then [Diag.cannotSetValidatesTwice] else []
        GoOutcome.ok ({ info with validatesSet := true }, dup)
      | _ => GoOutcome.ok (info, [Diag.unknownTypeModifier])
  | Modifier.refMod gv name => GoOutcome.ok (setTypeFrom info (RType.reference gv name))

/-- `modifiersToKnown` (src/kdlc/parser/ast/depset.go:550-560): fold
`updateTypeInfo` over the modifier list starting from the zero value.
Note there is no check at the end that a core type was produced. -/
def modifiersToKnown (mods : List Modifier) : GoOutcome (RTypeInfo × List Diag) :=
  mods.foldl
    (fun acc mod =>
      match acc with
      | GoOutcome.panics m => GoOutcome.panics m
      | GoOutcome.ok (info, ds) =>
        match updateTypeInfo info mod with
        | GoOutcome.panics m => GoOutcome.panics m
        | GoOutcome.ok (info2, ds2) => GoOutcome.ok (info2, ds ++ ds2))
    (GoOutcome.ok ({}, []))

/-- The core type produced by a modifier list (projection of
`modifiersToKnown`). -/
def mkCoreType (mods : List Modifier) : Option RType :=
  match modifiersToKnown mods with
  | GoOutcome.ok (info, _) => info.type
  | GoOutcome.panics _ => none

/-- The diagnostics produced by a modifier list (projection of
`modifiersToKnown`). -/
def mkDiags (mods : List Modifier) : List Diag :=
  match modifiersToKnown mods with
  | GoOutcome.ok (_, ds) => ds
  | GoOutcome.panics _ => []

/-- The final type switch of `toir.Field`
(src/kdlc/passes/toir/toir.go:437-484): each present core type is lowered
to the corresponding IR field type; a `ResolvedTypeInfo` whose `Type` is
nil falls into the `default` branch, which is
`panic("unreachable: unknown newtype")`. -/
def toirFieldCore (typ : Option RType) : GoOutcome RType :=
  match typ with
  | some t => GoOutcome.ok t
  | none => GoOutcome.panics "unreachable: unknown newtype"

/-- One frame of `fromast.identStack`
(src/kdlc/passes/fromast/nested.go:18-22): the declaration name of the
scope and the set of names declared directly in it.  A stack is the list
of frames innermost first; the group-version root frame has the empty
ident, mirroring the root built by `ResolveNested`. -/
structure IdentFrame where
  ident : String
  inScope : List String
  deriving DecidableEq, Repr

/-- `identStack.fullName` (src/kdlc/passes/fromast/nested.go:91-96): the
scope name, `::`-prefixed by the parent chain, stopping at a nil parent or
at the group-version root (empty ident). -/
def fullName : List IdentFrame → String
  | [] => ""
  | [f] => f.ident
  | f :: g :: rest =>
    if g.ident = "" then f.ident else fullName (g :: rest) ++ "::" ++ f.ident

/-- `identStack.fullNameFor` (src/kdlc/passes/fromast/nested.go:97-103):
qualify `name` by the full name of the stack, unless that is empty. -/
def fullNameFor (stack : List IdentFrame) (name : String) : String :=
  if fullName stack = "" then name else fullName stack ++ "::" ++ name

/-- Character-level search for the substring `::`. -/
def hasColonsChars : List Char → Bool
  | [] => false
  | ':' :: ':' :: _ => true
  | _ :: rest => hasColonsChars rest

/-- `strings.Contains(name, "::")` as `resolveName` uses it. -/
def hasPathSep (name : String) : Bool :=
  hasColonsChars name.data

/-- The scope walk of `identStack.resolveName`
(src/kdlc/passes/fromast/nested.go:110-115): walk the stack outward; the
first frame whose in-scope set holds the name wins and qualifies it with
`fullNameFor` of the stack from that frame outward. -/
def resolveNameWalk : List IdentFrame → String → Option String
  | [], _ => none
  | f :: rest, name =>
    if name ∈ f.inScope then some (fullNameFor (f :: rest) name)
    else resolveNameWalk rest name

/-- `identStack.resolveName` (src/kdlc/passes/fromast/nested.go:105-119):
a name containing `::` is returned unchanged with no diagnostic (the
source comments it as already fully qualified); otherwise walk the scope
stack outward; if no frame declares the name, record
"unresolvable identifier" and return the name unchanged. -/
def resolveName (stack : List IdentFrame) (name : String) : String × List Diag :=
  if hasPathSep name then (name, [])
  else
    match resolveNameWalk stack name with
    | some resolved => (resolved, [])
    | none => (name, [Diag.unresolvableIdentifier])

/-- The fully qualified name `identCtx.BeginSubtype` and `BeginKind` give a
declaration (src/kdlc/passes/fromast/nested.go:24-42): `fullNameFor` of the
enclosing scope stack applied to the declaration name. -/
def qualifiedDeclName (stack : List IdentFrame) (name : String) : String :=
  fullNameFor stack name

/-- The `::`-join of a list of name segments, written from the words of the
spec ("a fully qualified name Parent::...::Name") for comparison against
`fullNameFor`. -/
def joinQual : List String → String
  | [] => ""
  | [n] => n
  | n :: m :: rest => n ++ "::" ++ joinQual (m :: rest)

/-- `text/scanner`-backed lexer state (src/unnamed/part_003, the lexer
package): the input still ahead of the scanner and the token buffer
`tokBuf` of consumed characters.  `consumeCh` moves a character into the
buffer, `skipCh` drops it. -/
structure Scanner where
  remaining : List Char
  consumed : List Char
  deriving DecidableEq, Repr

/-- `Lexer.peekCh` (src/unnamed/part_003:169-171); `none` is the EOF
sentinel. -/
def peekCh (s : Scanner) : Option Char := s.remaining.head?

/-- `Lexer.consumeCh` (src/unnamed/part_003:163-167): advance one character
into `tokBuf`.  At EOF the scanner position does not move. -/
def consumeCh (s : Scanner) : Scanner :=
  match s.remaining with
  | [] => s
  | c :: rest => ⟨rest, s.consumed ++ [c]⟩

/-- `Lexer.skipCh` (src/unnamed/part_003:177-179): advance one character
without buffering it. -/
def skipCh (s : Scanner) : Scanner :=
  match s.remaining with
  | [] => s
  | _ :: rest => ⟨rest, s.consumed⟩

/-- `Lexer.expectThat` (src/unnamed/part_003:200-209): peek; if the
condition fails, mark an error, skip the character and report false, else
consume it and report true. -/
def expectThat (cond : Char → Bool) (s : Scanner) : Bool × Scanner :=
  match peekCh s with
  | some c => if cond c then (true, consumeCh s) else (false, skipCh s)
  | none => (false, s)

/-- The 62-iteration `for` loop of `Lexer.scanGroupDNSLabelInternal`
(src/unnamed/part_003:715-726).  Its switch classifies the peeked
character, but the `break` in the `default` case exits only the switch,
not the loop, so every iteration unconditionally falls through to
`count++` and `l.consumeCh()`.  The triple carries (count, scanner, last
peeked character). -/
def dnsLabelLoop : Nat → Nat → Scanner → Option Char → Nat × Scanner × Option Char
  | 0, count, s, ch => (count, s, ch)
  | i + 1, count, s, _ =>
    let ch := peekCh s
    dnsLabelLoop i (count + 1) (consumeCh s) ch

/-- Result of `Lexer.scanGroupDNSLabelInternal`: the character count, the
ok flag of the source (false also marks an error), and the scanner
afterwards. -/
structure DNSLabelResult where
  count : Nat
  ok : Bool
  after : Scanner
  deriving DecidableEq, Repr

/-- `Lexer.scanGroupDNSLabelInternal` (src/unnamed/part_003:707-733):
expect a lowercase first character (count 1), run the 62-iteration loop,
then fail if the last peeked character was a dash. -/
def scanGroupDNSLabelInternal (s : Scanner) : DNSLabelResult :=
  match expectThat (fun c => 'a' ≤ c && c ≤ 'z') s with
  | (false, s2) => ⟨0, false, s2⟩
  | (true, s2) =>
    match dnsLabelLoop 62 1 s2 none with
    | (count, s3, lastCh) =>
      if lastCh = some '-' then ⟨0, false, s3⟩ else ⟨count, true, s3⟩

/-- The string-recovery helper closed over by `Lexer.scanString`
(src/unnamed/part_003:388-395): skip everything up to the closing quote
(recording "unterminated string literal" if EOF is hit first), then skip
the quote.  Operates on the list of characters still ahead. -/
def consumeTillEnd (s : List Char) : List Diag × List Char :=
  match s.dropWhile (fun c => c ≠ '"') with
  | [] => ([Diag.unterminatedString], [])
  | _ :: rest => ([], rest)

/-- The per-character acceptance test of the `\uXXXX` branch of
`Lexer.scanString` (src/unnamed/part_003:412-425): the source accepts
`0-9`, `a-z` and `A-Z` — all letters, not only hexadecimal digits. -/
def uEscapeCharOk (c : Char) : Bool :=
  ('0' ≤ c && c ≤ '9') || ('a' ≤ c && c ≤ 'z') || ('A' ≤ c && c ≤ 'Z')

/-- The four-round inner loop of the `\u` branch of `Lexer.scanString`:
each round peeks, errors out (with recovery to the closing quote) on a
character failing `uEscapeCharOk`, and consumes otherwise. -/
def scanUEscape : Nat → List Char → Except (List Diag × List Char) (List Char)
  | 0, s => Except.ok s
  | i + 1, s =>
    match s with
    | [] =>
      match consumeTillEnd [] with
      | (ds, rest) => Except.error (Diag.badUEscapeChar :: ds, rest)
    | c :: rest =>
      if uEscapeCharOk c then scanUEscape i rest
      else
        match consumeTillEnd (c :: rest) with
        | (ds, rest2) => Except.error (Diag.badUEscapeChar :: ds, rest2)

/-- The main loop of `Lexer.scanString` (src/unnamed/part_003:397-438),
operating on the characters after the opening quote: raw newlines error
and recover; a backslash is followed by one of the JSON single-character
escapes, a `\u` escape (checked by `scanUEscape`), or errors with
recovery; a quote ends the string; anything else is consumed.  Every
iteration consumes at least one character, so fuel equal to the input
length suffices; fuel 0 is never reached on such inputs. -/
def scanStringLoop : Nat → List Char → List Diag × List Char
  | 0, s => ([], s)
  | fuel + 1, s =>
    match s with
    | [] => ([Diag.unterminatedString], [])
    | c :: rest =>
      if c = '\r' || c = '\n' then
        match consumeTillEnd (c :: rest) with
        | (ds, rest2) => (Diag.stringNewline :: ds, rest2)
      else if c = '\\' then
        match rest with
        | [] =>
          match consumeTillEnd [] with
          | (ds, rest2) => (Diag.badEscape :: ds, rest2)
        | e :: rest2 =>
          if e = '\\' || e = '"' || e = '/' || e = 'b' || e = 'f' || e = 'n' ||
              e = 'r' || e = 't' then
            scanStringLoop fuel rest2
          else if e = 'u' then
            match scanUEscape 4 rest2 with
            | Except.ok rest3 => scanStringLoop fuel rest3
            | Except.error d => d
          else
            match consumeTillEnd (e :: rest2) with
            | (ds, rest3) => (Diag.badEscape :: ds, rest3)
      else if c = '"' then ([], rest)
      else scanStringLoop fuel rest

/-- `Lexer.scanString` (src/unnamed/part_003:384-443) on a token that
starts with the opening quote: consume it and run the loop.  Returns the
lexical diagnostics and the input left after the string token. -/
def scanString (lit : List Char) : List Diag × List Char :=
  match lit with
  | '"' :: rest => scanStringLoop (rest.length + 1) rest
  | _ => ([], lit)

/-- One hexadecimal digit as `strconv.ParseUint(digits, 16, 32)` accepts
it: the decimal digits (code points 48-57) and the letters `a`-`f`
(97-102) or `A`-`F` (65-70). -/
def hexDigitVal (c : Char) : Option Nat :=
  let n := c.toNat
  if 48 ≤ n ∧ n ≤ 57 then some (n - 48)
  else if 97 ≤ n ∧ n ≤ 102 then some (n - 87)
  else if 65 ≤ n ∧ n ≤ 70 then some (n - 55)
  else none

/-- The `\u` handling of `Parser.parseString` (src/unnamed/part_001,
parser unit, lines 225-238): parse the four digits with
`strconv.ParseUint(digits, 16, 32)`; on a parse error the parser executes
`panic(fmt.Sprintf("bad hex digits ..."))` — the comment above it reads
"the lexer should have taken care of this". -/
def parseUEscapeDigits (digits : List Char) : GoOutcome Nat :=
  match digits.mapM hexDigitVal with
  | some ds => GoOutcome.ok (ds.foldl (fun acc d => acc * 16 + d) 0)
  | none => GoOutcome.panics "bad hex digits"

/-- `mdesc.MarkerIdent`: the alias prefix and marker name of a marker
invocation (an empty prefix for `@name` without an alias). -/
structure MarkerIdent where
  pfix : String
  name : String
  deriving DecidableEq, Repr

/-- A marker field type as compiled into the dynamic descriptor.  Marker
declarations only admit primitives, lists of primitives and string-keyed
maps to primitives (`resolveMarkerModifiers`,
src/kdlc/passes/fromast/markerdecls.go:23-67), so the reachable shapes are
flattened here. -/
inductive MTy where
  | primitive : Prim → MTy
  | listOfPrim : Prim → MTy
  | mapToPrim : Prim → MTy
  deriving DecidableEq, Repr

/-- One field of a compiled marker descriptor: the descriptor field name
(dashes already substituted by underscores) and its type. -/
structure MarkerFieldDef where
  name : String
  typ : MTy
  deriving DecidableEq, Repr

/-- A protobuf value as `valToProto` builds it. -/
inductive PVal where
  | str : String → PVal
  | i32 : Int → PVal
  | i64 : Int → PVal
  | b : Bool → PVal
  | listOf : List PVal → PVal
  | mapOf : List (String × PVal) → PVal

/-- `valToProto` (src/kdlc/passes/fromast/markerdecls.go:77-155): coerce a
source value into a descriptor field.  Mismatches record a diagnostic and
yield the invalid value (`none` here); list elements failing coercion are
skipped; a field-path value panics (`panic("TODO: need a marker field
primitive for field paths")` in the source); type values record
"type values are not supported in marker parameters".  Fuel bounds the
recursion into list and map elements. -/
def valToProto : Nat → AValue → MTy → GoOutcome (Option PVal × List Diag)
  | 0, _, _ => GoOutcome.ok (none, [])
  | fuel + 1, v, t =>
    match v with
    | AValue.stringV s =>
      match t with
      | MTy.primitive Prim.string => GoOutcome.ok (some (PVal.str s), [])
      | _ => GoOutcome.ok (none, [Diag.mismatchedMarkerValue])
    | AValue.numV n =>
      match t with
      | MTy.primitive Prim.int32 => GoOutcome.ok (some (PVal.i32 n), [])
      | MTy.primitive Prim.int64 => GoOutcome.ok (some (PVal.i64 n), [])
      | _ => GoOutcome.ok (none, [Diag.mismatchedMarkerValue])
    | AValue.boolV bv =>
      match t with
      | MTy.primitive Prim.bool => GoOutcome.ok (some (PVal.b bv), [])
      | _ => GoOutcome.ok (none, [Diag.mismatchedMarkerValue])
    | AValue.listV elems =>
      match t with
      | MTy.listOfPrim p =>
        let step := fun (acc : GoOutcome (List PVal × List Diag)) (elem : AValue) =>
          match acc with
          | GoOutcome.panics m => GoOutcome.panics m
          | GoOutcome.ok (vals, ds) =>
            match valToProto fuel elem (MTy.primitive p) with
            | GoOutcome.panics m => GoOutcome.panics m
            | GoOutcome.ok (none, ds2) => GoOutcome.ok (vals, ds ++ ds2)
            | GoOutcome.ok (some pv, ds2) => GoOutcome.ok (vals ++ [pv], ds ++ ds2)
        match elems.foldl step (GoOutcome.ok ([], [])) with
        | GoOutcome.panics m => GoOutcome.panics m
        | GoOutcome.ok (vals, ds) => GoOutcome.ok (some (PVal.listOf vals), ds)
      | _ => GoOutcome.ok (none, [Diag.mismatchedMarkerValue])
    | AValue.structV kvs =>
      match t with
      | MTy.mapToPrim p =>
        let step := fun (acc : GoOutcome (List (String × PVal) × List Diag))
            (kv : String × AValue) =>
          match acc with
          | GoOutcome.panics m => GoOutcome.panics m
          | GoOutcome.ok (vals, ds) =>
            match valToProto fuel kv.2 (MTy.primitive p) with
            | GoOutcome.panics m => GoOutcome.panics m
            | GoOutcome.ok (none, ds2) => GoOutcome.ok (vals, ds ++ ds2)
            | GoOutcome.ok (some pv, ds2) =>
              GoOutcome.ok (vals ++ [(kv.1, pv)], ds ++ ds2)
        match kvs.foldl step (GoOutcome.ok ([], [])) with
        | GoOutcome.panics m => GoOutcome.panics m
        | GoOutcome.ok (vals, ds) => GoOutcome.ok (some (PVal.mapOf vals), ds)
      | _ => GoOutcome.ok (none, [Diag.mismatchedMarkerValue])
    | AValue.fieldPathV _ =>
      GoOutcome.panics "TODO: need a marker field primitive for field paths"
    | AValue.refTypeV _ _ => GoOutcome.ok (none, [Diag.typeValuesNotSupported])
    | AValue.primTypeV _ => GoOutcome.ok (none, [Diag.typeValuesNotSupported])
    | AValue.compoundTypeV _ _ => GoOutcome.ok (none, [Diag.typeValuesNotSupported])

/-- `ast.ParameterList`: the ordered keyword arguments of a marker
invocation or modifier. -/
structure ParameterList where
  params : List (String × AValue)

/-- `ast.AbstractMarker` (parser side): the invocation name (possibly
`alias::name`) and its parameter list — a nil pointer when the invocation
has no argument list (`Parser.maybeMarkers`, src/unnamed/part_001, parser
unit, lines 663-701, sets `marker.Parameters` only when a `(` follows). -/
structure AbstractMarker where
  name : String
  parameters : Option ParameterList

/-- The compiled-descriptor state of `markerConverter`
(src/kdlc/passes/fromast/markerdecls.go:157-166), collapsed to the map
from marker ident to its compiled descriptor fields; the file-loading and
proto-compilation pipeline behind `getDescriptor` is represented by this
lookup (a missing entry records "unknown marker" and yields nil). -/
structure MarkerConverterState where
  descriptors : List (MarkerIdent × List MarkerFieldDef)

/-- Character-level split at the first occurrence of `::`; `none` when the
separator does not occur. -/
def breakAtColons : List Char → Option (List Char × List Char)
  | [] => none
  | ':' :: ':' :: rest => some ([], rest)
  | c :: rest => (breakAtColons rest).map fun pr => (c :: pr.1, pr.2)

/-- `strings.SplitN(raw.Name.Name, "::", 2)` as `markerToMsg` applies it
to split an invocation name into prefix and name. -/
def splitMarkerName (raw : String) : MarkerIdent :=
  match breakAtColons raw.data with
  | none => ⟨"", raw⟩
  | some (p, rest) => ⟨⟨p⟩, ⟨rest⟩⟩

/-- `strings.Replace(param.Key.Name, "-", "_", -1)`. -/
def underscoreName (s : String) : String :=
  s.map fun c => if c = '-' then '_' else c

/-- `markerConverter.markerToMsg`
(src/kdlc/passes/fromast/markerdecls.go:234-271): split the name, fetch
the descriptor (unknown: diagnostic, nil message), then iterate
`raw.Parameters.Params` — when the invocation had no argument list,
`raw.Parameters` is a nil pointer and the field access panics with the Go
nil-pointer runtime error.  Each present parameter is matched against the
descriptor fields by underscored name (unknown: diagnostic, skip) and
coerced with `valToProto` (invalid: skip). -/
def markerToMsg (st : MarkerConverterState) (fuel : Nat) (raw : AbstractMarker) :
    GoOutcome (Option (List (String × PVal)) × List Diag) :=
  let ident := splitMarkerName raw.name
  match st.descriptors.lookup ident with
  | none => GoOutcome.ok (none, [Diag.unknownMarker])
  | some defFields =>
    match raw.parameters with
    | none => GoOutcome.panics "invalid memory address or nil pointer dereference"
    | some plist =>
      let step := fun (acc : GoOutcome (List (String × PVal) × List Diag))
          (param : String × AValue) =>
        match acc with
        | GoOutcome.panics m => GoOutcome.panics m
        | GoOutcome.ok (msg, ds) =>
          let paramName := underscoreName param.1
          match defFields.find? (fun fd => fd.name = paramName) with
          | none => GoOutcome.ok (msg, ds ++ [Diag.unknownMarkerParameter])
          | some fd =>
            match valToProto fuel param.2 fd.typ with
            | GoOutcome.panics m => GoOutcome.panics m
            | GoOutcome.ok (none, ds2) => GoOutcome.ok (msg, ds ++ ds2)
            | GoOutcome.ok (some pv, ds2) =>
              GoOutcome.ok (msg ++ [(paramName, pv)], ds ++ ds2)
      match plist.params.foldl step (GoOutcome.ok ([], [])) with
      | GoOutcome.panics m => GoOutcome.panics m
      | GoOutcome.ok (msg, ds) => GoOutcome.ok (some msg, ds)

/-- Lexer token classes as the value parser consumes them (the subset of
src/unnamed/part_003 token constants reachable from `Parser.parseValue`).
The token list models the parser front: its head is `p.peek()`, an empty
list is the EOF token. -/
inductive Tok where
  | lcurly
  | rcurly
  | lbrack
  | rbrack
  | colon
  | comma
  | strTok : String → Tok
  | numTok : Int → Tok
  | kwTrue
  | kwFalse
  | fieldOrKey : String → Tok
  | definitelyKey : String → Tok
  | fieldPathTok : String → Tok
  | typeIdentTok : String → Tok
  deriving DecidableEq, Repr

/-- `p.expect(ctx, typ)` combined with `markErrExp` (src/unnamed/part_001,
parser unit, lines 66-98): consume the token when it matches, otherwise
record the expected-token diagnostic and advance anyway (`markErrExp`
always calls `p.next`). -/
def pExpect (typ : Tok) (toks : List Tok) : List Diag × List Tok :=
  match toks with
  | [] => ([Diag.expectedToken], [])
  | t :: rest => if t = typ then ([], rest) else ([Diag.expectedToken], rest)

/-- `Parser.parseKey` (src/unnamed/part_001, parser unit, lines 169-180):
a field-or-key or definite-key token yields its text; anything else is an
expected-token diagnostic (which advances). -/
def parseKey (toks : List Tok) : String × List Diag × List Tok :=
  match toks with
  | Tok.fieldOrKey s :: rest => (s, [], rest)
  | Tok.definitelyKey s :: rest => (s, [], rest)
  | _ :: rest => ("", [Diag.expectedToken], rest)
  | [] => ("", [Diag.expectedToken], [])

mutual

/-- `Parser.parseValue` (src/unnamed/part_001, parser unit, lines
247-347), restricted to the string, number, boolean, struct, list,
field-path and type-ident cases.  The struct branch mirrors the source
exactly: after the `p.until('}')` loop over key/value pairs it closes the
literal with `p.expect(Describe(listCtx, "list end"), ']')` — demanding a
`]` although the loop stopped at the `}` of the struct.  The list branch
correctly closes with `]`.  Fuel bounds the recursion. -/
def parseValue : Nat → List Tok → Option AValue × List Diag × List Tok
  | 0, toks => (none, [], toks)
  | fuel + 1, toks =>
    match toks with
    | Tok.strTok s :: rest => (some (AValue.stringV s), [], rest)
    | Tok.numTok n :: rest => (some (AValue.numV n), [], rest)
    | Tok.kwTrue :: rest => (some (AValue.boolV true), [], rest)
    | Tok.kwFalse :: rest => (some (AValue.boolV false), [], rest)
    | Tok.fieldPathTok s :: rest => (some (AValue.fieldPathV s), [], rest)
    | Tok.typeIdentTok s :: rest => (some (AValue.refTypeV none s), [], rest)
    | Tok.lcurly :: rest =>
      match structLoop fuel rest with
      | (kvs, ds, rest2) =>
        match pExpect Tok.rbrack rest2 with
        | (ds2, rest3) => (some (AValue.structV kvs), ds ++ ds2, rest3)
    | Tok.lbrack :: rest =>
      match listLoop fuel rest with
      | (vs, ds, rest2) =>
        match pExpect Tok.rbrack rest2 with
        | (ds2, rest3) => (some (AValue.listV vs), ds ++ ds2, rest3)
    | _ :: rest => (none, [Diag.expectedToken], rest)
    | [] => (none, [Diag.expectedToken], [])

/-- The `p.until('}', ...)` body of the struct branch of
`Parser.parseValue` (src/unnamed/part_001, parser unit, lines 273-286):
while the next token is neither `}` nor EOF, parse a key, expect `:`,
parse a value and append the pair (the source consumes no commas between
struct pairs). -/
def structLoop : Nat → List Tok →
    List (String × AValue) × List Diag × List Tok
  | 0, toks => ([], [], toks)
  | fuel + 1, toks =>
    match toks with
    | [] => ([], [], [])
    | Tok.rcurly :: _ => ([], [], toks)
    | _ =>
      match parseKey toks with
      | (key, ds1, rest1) =>
        match pExpect Tok.colon rest1 with
        | (ds2, rest2) =>
          match parseValue fuel rest2 with
          | (val, ds3, rest3) =>
            match structLoop fuel rest3 with
            | (kvs, ds4, rest4) =>
              ((key, val.getD (AValue.stringV "")) :: kvs,
                ds1 ++ ds2 ++ ds3 ++ ds4, rest4)

/-- The `p.until(']', ...)` body of the list branch of `Parser.parseValue`
(src/unnamed/part_001, parser unit, lines 291-303): while the next token
is neither `]` nor EOF, parse a value and, unless `]` follows, expect a
comma. -/
def listLoop : Nat → List Tok → List AValue × List Diag × List Tok
  | 0, toks => ([], [], toks)
  | fuel + 1, toks =>
    match toks with
    | [] => ([], [], [])
    | Tok.rbrack :: _ => ([], [], toks)
    | _ =>
      match parseValue fuel toks with
      | (val, ds1, rest1) =>
        match rest1 with
        | Tok.rbrack :: _ =>
          match listLoop fuel rest1 with
          | (vs, ds2, rest2) => (val.getD (AValue.stringV "") :: vs, ds1 ++ ds2, rest2)
        | _ =>
          match pExpect Tok.comma rest1 with
          | (dsc, restc) =>
            match listLoop fuel restc with
            | (vs, ds2, rest2) =>
              (val.getD (AValue.stringV "") :: vs, ds1 ++ dsc ++ ds2, rest2)

end

/-- A `pstruct.Value` as `toir.Value` builds it; list and struct entries
are pointers that may be nil (`Option`). -/
inductive PValue where
  | stringV : String → PValue
  | numberV : Int → PValue
  | boolV : Bool → PValue
  | listV : List (Option PValue) → PValue
  | structV : List (String × Option PValue) → PValue

/-- `toir.Value` (src/kdlc/passes/toir/toir.go:489-561).  The `StructVal`
branch declares `var vals map[string]*pstruct.Value` — a nil Go map — and
then executes `vals[item.Key.Name] = Value(ctx, item.Value)` for each
pair; with at least one pair the right-hand side is evaluated and the
assignment then panics with "assignment to entry in nil map".  With no
pairs the loop body never runs and the struct is returned over the nil
map.  Group-qualified type references, primitive-type values and compound
type values record "cannot serialize type values" and yield nil. -/
def toirValue : Nat → AValue → GoOutcome (Option PValue × List Diag)
  | 0, _ => GoOutcome.ok (none, [])
  | fuel + 1, v =>
    match v with
    | AValue.stringV s => GoOutcome.ok (some (PValue.stringV s), [])
    | AValue.numV n => GoOutcome.ok (some (PValue.numberV n), [])
    | AValue.boolV bv => GoOutcome.ok (some (PValue.boolV bv), [])
    | AValue.listV items =>
      let step := fun (acc : GoOutcome (List (Option PValue) × List Diag))
          (item : AValue) =>
        match acc with
        | GoOutcome.panics m => GoOutcome.panics m
        | GoOutcome.ok (vals, ds) =>
          match toirValue fuel item with
          | GoOutcome.panics m => GoOutcome.panics m
          | GoOutcome.ok (pv, ds2) => GoOutcome.ok (vals ++ [pv], ds ++ ds2)
      match items.foldl step (GoOutcome.ok ([], [])) with
      | GoOutcome.panics m => GoOutcome.panics m
      | GoOutcome.ok (vals, ds) => GoOutcome.ok (some (PValue.listV vals), ds)
    | AValue.structV kvs =>
      match kvs with
      | [] => GoOutcome.ok (some (PValue.structV []), [])
      | (_, v0) :: _ =>
        match toirValue fuel v0 with
        | GoOutcome.panics m => GoOutcome.panics m
        | GoOutcome.ok _ => GoOutcome.panics "assignment to entry in nil map"
    | AValue.fieldPathV n => GoOutcome.ok (some (PValue.stringV n), [])
    | AValue.refTypeV gv nm =>
      match gv with
      | none => GoOutcome.ok (some (PValue.stringV nm), [])
      | some _ => GoOutcome.ok (none, [Diag.cannotSerializeTypeValues])
    | AValue.primTypeV _ => GoOutcome.ok (none, [Diag.cannotSerializeTypeValues])
    | AValue.compoundTypeV _ _ => GoOutcome.ok (none, [Diag.cannotSerializeTypeValues])

/-! Concrete instances used by the theorems. -/

/-- Scenario 2 group-version of the spec. -/
def c1gv : GroupVer := ⟨"g", "v1"⟩

/-- The item name of the scenario-2 list-map. -/
def c1Items : Name := ⟨c1gv, "Source"⟩

/-- The scenario-2 union: `union Source(tag: "type")` with one variant. -/
def c1Union : UnionT := ⟨"type", false, ["hostPath"]⟩

/-- A merged type graph declaring only the union `Source`. -/
def c1Graph : Graph := ⟨[(c1gv, ⟨[], [(c1Items, Terminal.union c1Union)]⟩)]⟩

/-- The same declarations as an AST-level type graph. -/
def c1AGraph : ATypegraph :=
  ATypegraph.mk [] [(c1Items, ATerminal.union c1Union)] []

/-- The two alias names of the cyclic newtype chain. -/
def c5A : Name := ⟨⟨"g", "v1"⟩, "A"⟩

/-- Second name of the cyclic chain. -/
def c5B : Name := ⟨⟨"g", "v1"⟩, "B"⟩

/-- References recorded for `newtype A : B;` and `newtype B : A;`. -/
def c5Refs : List (Name × Name) := [(c5A, c5B), (c5B, c5A)]

/-- The graph holding the cyclic alias chain (no terminals). -/
def c5Graph : Graph := ⟨[(⟨"g", "v1"⟩, ⟨c5Refs, []⟩)]⟩

/-- Every iterate of the reference-chasing loop on the cyclic chain stays
inside the cycle: after any number of steps the loop has not exited. -/
theorem chaseRefs_c5_cycle (fuel : Nat) :
    chaseRefs c5Refs fuel c5A = none ∧ chaseRefs c5Refs fuel c5B = none := by
  induction fuel with
  | zero => exact ⟨rfl, rfl⟩
  | succ n ih =>
    refine ⟨?_, ?_⟩
    · show (match c5Refs.lookup c5A with
        | none => some c5A
        | some next => chaseRefs c5Refs n next) = none
      rw [show c5Refs.lookup c5A = some c5B from rfl]
      exact ih.2
    · show (match c5Refs.lookup c5B with
        | none => some c5B
        | some next => chaseRefs c5Refs n next) = none
      rw [show c5Refs.lookup c5B = some c5A from rfl]
      exact ih.1

/-- C5: the claim states that terminal resolution terminates for every
name, including one whose reference-alias chain is cyclic, returning a
non-alias terminal or reporting a diagnostic.  On the graph of
`newtype A : B;` / `newtype B : A;` the reference loop of
`Graph.TerminalFor` (src/kdlc/passes/typecheck/graph.go:337-341) never
exits: for every fuel bound the embedded loop is still running, so the Go
function neither returns nor reports — it hangs. -/
theorem C5_terminalFor_hangs_on_cyclic_aliases (fuel : Nat) :
    TerminalFor c5Graph fuel c5A = none := by
  have h1 : c5Graph.gvToNode.lookup c5A.gv =
      some (⟨c5Refs, []⟩ : MergedNode) := rfl
  have h2 := (chaseRefs_c5_cycle fuel).1
  simp only [TerminalFor, h1, h2]

/-- C5 applied at a concrete fuel bound: after five loop iterations the
resolution of the cyclic alias `A` still has not produced a result. -/
theorem C5_terminalFor_hangs_on_cyclic_aliases_witness :
    TerminalFor c5Graph 5 c5A = none :=
  C5_terminalFor_hangs_on_cyclic_aliases 5

/-- C1 counterexample: the claim states that a list-map over a tagged
union whose single key equals the union tag is accepted with no
diagnostic.  `checkListMap` (src/kdlc/passes/typecheck/checks.go:39-64),
the checker invoked by `CheckAll` from the loader pipeline, has no union
case: the tagged union `Source` with key `type` (its tag) falls into the
default branch and "list-map items must be structs" is reported. -/
theorem C1_checkListMap_rejects_tagged_union :
    checkListMap c1Graph 1 c1Items ["type"] =
      some [Diag.listMapItemsMustBeStructs] := rfl

/-- First import entry of the C2 run. -/
def c2entryA : GroupVer × TypeImport := (⟨"g1", "v1"⟩, ⟨⟨"g1", "v1"⟩, "a.kdl"⟩)

/-- Second import entry of the C2 run. -/
def c2entryB : GroupVer × TypeImport := (⟨"g2", "v1"⟩, ⟨⟨"g2", "v1"⟩, "b.kdl"⟩)

/-- C2: the claim states that two runs of the pipeline on identical inputs
serialize byte-identical CKDL, including the order of dependency entries.
`toir.Imports` (src/kdlc/passes/toir/toir.go:96-114) emits dependency
entries by ranging over a Go map, whose iteration order is unspecified and
varies between runs: the two orders below are permutations of the same
two-entry map, and they produce different dependency lists — hence
different serialized bytes for the same input. -/
theorem C2_imports_depend_on_map_iteration_order :
    [c2entryA, c2entryB].Perm [c2entryB, c2entryA] ∧
    irImports [c2entryA, c2entryB] ≠ irImports [c2entryB, c2entryA] := by
  refine ⟨List.Perm.swap _ _ _, ?_⟩
  decide

/-- C3: the claim states that `ErrorAt` records the diagnostic, flips a
context-wide had-error flag, and returns normally even when no full-input
string is attached.  In the source (src/kdlc/parser/trace/context.go:
294-302) `ErrorAt` panics with the message whenever `WithFullInput` was
not called on the context, and even in the normal case it only prints: no
flag exists on the context and nothing is recorded. -/
theorem C3_ErrorAt_panics_without_full_input (msg input : String) :
    ErrorAt ⟨none⟩ msg = GoOutcome.panics msg ∧
    ErrorAt ⟨some input⟩ msg = GoOutcome.ok () :=
  ⟨rfl, rfl⟩

/-- C3 applied at a concrete message: reporting the key diagnostic of
scenario 2 on a context with no full input panics. -/
theorem C3_ErrorAt_panics_without_full_input_witness :
    ErrorAt ⟨none⟩ "key of list-map not present in item" =
      GoOutcome.panics "key of list-map not present in item" :=
  (C3_ErrorAt_panics_without_full_input
    "key of list-map not present in item" "").1

/-- C4: the claim states that a modifier list with zero type-producing
modifiers yields a diagnostic instead of reaching IR lowering with no
type.  In the source, `modifiersToKnown` returns the modifier list
`optional` with no diagnostic and no core type, and the type switch of
`toir.Field` then hits its default branch, which is
`panic("unreachable: unknown newtype")` — the state the source labels
unreachable is reached.  (The duplicate half of the claim does hold: two
type-producing modifiers produce the duplicate-type diagnostic, and the
second type wins.) -/
theorem C4_missing_core_type_reaches_panic :
    mkCoreType [Modifier.keyish "optional" none] = none ∧
    mkDiags [Modifier.keyish "optional" none] = [] ∧
    toirFieldCore (mkCoreType [Modifier.keyish "optional" none]) =
      GoOutcome.panics "unreachable: unknown newtype" ∧
    mkDiags [Modifier.keyish "string" none, Modifier.keyish "int32" none] =
      [Diag.cannotHaveTwoTypes] ∧
    mkCoreType [Modifier.keyish "string" none, Modifier.keyish "int32" none] =
      some (RType.primitive Prim.int32) :=
  ⟨rfl, rfl, rfl, rfl, rfl⟩

/-- The dotted-group qualified path `io/v1::PodTemplateSpec...` as the
DNS-label scanner sees it after the first label: the label `io` should end
at the slash. -/
def c7Input : List Char :=
  ("io/v1::PodTemplateSpecMetadataOwnerReferencesStatusConditionExtra").data

/-- C7: the claim states that a character outside `[a-z0-9-]` ends a DNS
label rather than being consumed into it.  In
`Lexer.scanGroupDNSLabelInternal` (src/unnamed/part_003:707-733) the
`break` in the default switch case exits only the switch, so the 62-round
loop unconditionally consumes 62 further characters: scanning the label
`io` of `io/v1::...` consumes the `/`, the version and the `::` into the
label (63 characters in all) and still reports success. -/
theorem C7_dns_label_consumes_terminator :
    (scanGroupDNSLabelInternal ⟨c7Input, []⟩).ok = true ∧
    (scanGroupDNSLabelInternal ⟨c7Input, []⟩).count = 63 ∧
    '/' ∈ (scanGroupDNSLabelInternal ⟨c7Input, []⟩).after.consumed ∧
    ':' ∈ (scanGroupDNSLabelInternal ⟨c7Input, []⟩).after.consumed := by
  decide

/-- The string literal `"\uZZZZ"` as a character list. -/
def c8Lit : List Char := ['"', '\\', 'u', 'Z', 'Z', 'Z', 'Z', '"']

/-- C8: the claim states that a malformed escape such as `\uZZZZ` is
reported as a lexical diagnostic with a normal return.  The `\u` branch of
`Lexer.scanString` (src/unnamed/part_003:412-425) accepts every letter
`a-z`/`A-Z`, not only hexadecimal digits, so `"\uZZZZ"` lexes with no
diagnostic at all — and `Parser.parseString` then panics in its
`strconv.ParseUint` error branch, aborting instead of diagnosing. -/
theorem C8_uZZZZ_lexes_cleanly_then_parser_panics :
    scanString c8Lit = ([], []) ∧
    parseUEscapeDigits ['Z', 'Z', 'Z', 'Z'] =
      GoOutcome.panics "bad hex digits" :=
  ⟨rfl, rfl⟩

/-- The marker ident `kgo::name`. -/
def c9Ident : MarkerIdent := ⟨"kgo", "name"⟩

/-- A converter that has compiled the marker `kgo::name` with one string
field `as`. -/
def c9State : MarkerConverterState :=
  ⟨[(c9Ident, [⟨"as", MTy.primitive Prim.string⟩])]⟩

/-- The invocation `@kgo::name` with no argument list (nil parameters). -/
def c9NoArgList : AbstractMarker := ⟨"kgo::name", none⟩

/-- The invocation `@kgo::name()` with an empty argument list. -/
def c9EmptyArgList : AbstractMarker := ⟨"kgo::name", some ⟨[]⟩⟩

/-- C9: the claim states that a marker invocation without an argument list
resolves normally, the same as one with an empty argument list.
`markerToMsg` (src/kdlc/passes/fromast/markerdecls.go:234-271) iterates
`raw.Parameters.Params` without a nil check; `Parser.maybeMarkers` leaves
`Parameters` nil when no `(` follows the name, so the resolvable
invocation `@kgo::name` panics with a nil-pointer dereference, while
`@kgo::name()` resolves to an empty message. -/
theorem C9_marker_without_arg_list_panics :
    markerToMsg c9State 1 c9NoArgList =
      GoOutcome.panics "invalid memory address or nil pointer dereference" ∧
    markerToMsg c9State 1 c9EmptyArgList = GoOutcome.ok (some [], []) :=
  ⟨rfl, rfl⟩

/-- The token stream of the struct value literal `{as: "x"}`. -/
def c10Toks : List Tok :=
  [Tok.lcurly, Tok.fieldOrKey "as", Tok.colon, Tok.strTok "x", Tok.rcurly]

/-- C10: the claim states that a well-formed struct value literal is
consumed up to its closing `}` with no diagnostic and that IR lowering
serializes its pairs without failing.  Both halves fail in the source: the
struct branch of `Parser.parseValue` closes the literal with
`p.expect(..., ']')`, so parsing `{as: "x"}` records exactly one
expected-token diagnostic at the `}` (which `markErrExp` then consumes),
and `toir.Value` assigns the pair into the nil map
`var vals map[string]*pstruct.Value`, which panics. -/
theorem C10_struct_value_expects_bracket_and_nil_map_panics :
    (parseValue 5 c10Toks).2.1 = [Diag.expectedToken] ∧
    (parseValue 5 c10Toks).2.2 = [] ∧
    (parseValue 5 c10Toks).1 =
      some (AValue.structV [("as", AValue.stringV "x")]) ∧
    toirValue 2 (AValue.structV [("as", AValue.stringV "x")]) =
      GoOutcome.panics "assignment to entry in nil map" :=
  ⟨rfl, rfl, rfl, rfl⟩

/-- A list is the singleton `[a]` exactly when it has length one and head
`a`. -/
theorem length_one_head_iff {α : Type} (l : List α) (a : α) :
    l.length = 1 ∧ l.head? = some a ↔ l = [a] := by
  cases l with
  | nil => simp
  | cons x xs =>
    cases xs with
    | nil => simp [eq_comm]
    | cons y ys => simp

/-- The struct key loop produces no diagnostic exactly when every key is a
field of the item. -/
theorem structKeyDiags_eq_nil (s : StructT) (keys : List String) :
    structKeyDiags s keys = [] ↔ ∀ k ∈ keys, k ∈ s.fields := by
  unfold structKeyDiags
  rw [List.filterMap_eq_nil_iff]
  refine forall₂_congr fun k _ => ?_
  by_cases hk : k ∈ s.fields <;> simp [hk]

/-- C1 amended: the AST-level checker `validListMap` accepts a list-map
whose item resolves cleanly to a terminal exactly when that terminal is a
struct containing every key, or a tagged union whose single key list is
its tag (a union with any other key list gets the union-tag diagnostic,
not "key of list-map not present in item"); the IR-level `checkListMap`
invoked from `CheckAll` instead reports "list-map items must be structs"
for every union item (see the counterexample). -/
theorem C1_validListMap_characterization (g : ATypegraph) (fuel : Nat)
    (items : Name) (keys : List String) (t : ATerminal)
    (h : aTerminalFor fuel g items = some (some t, [])) :
    validListMap fuel g items keys = some [] ↔
      ((∃ s, t = ATerminal.struct s ∧ ∀ k ∈ keys, k ∈ s.fields) ∨
        (∃ u, t = ATerminal.union u ∧ u.untagged = false ∧ keys = [u.tag])) := by
  unfold validListMap
  rw [h]
  cases t with
  | aliasT => simp
  | struct s =>
    simp only [Option.map_some', List.nil_append, Option.some.injEq,
      structKeyDiags_eq_nil]
    constructor
    · intro hall
      exact Or.inl ⟨s, rfl, hall⟩
    · rintro (⟨s2, hs2, hall⟩ | ⟨u, hu, _⟩)
      · cases hs2
        exact hall
      · cases hu
  | union u =>
    simp only [Option.map_some', List.nil_append, Option.some.injEq]
    constructor
    · intro hcond
      by_cases hc : (u.untagged || keys.length != 1 || keys.head? != some u.tag) = true
      · rw [if_pos hc] at hcond
        cases hcond
      · rw [if_neg hc] at hcond
        simp only [Bool.or_eq_true, bne_iff_ne, ne_eq, not_or, Bool.not_eq_true,
          not_not] at hc
        refine Or.inr ⟨u, rfl, hc.1.1, ?_⟩
        exact (length_one_head_iff keys u.tag).mp ⟨hc.1.2, hc.2⟩
    · rintro (⟨s, hs, _⟩ | ⟨u2, hu2, huntag, hkeys⟩)
      · cases hs
      · cases hu2
        subst hkeys
        rw [if_neg]
        simp [huntag]
  | enum => simp
  | kind => simp

/-- C1 amended, applied: on the scenario-2 graph (the tagged union
`Source` with tag `type`), `validListMap` with keys `[type]` produces no
diagnostic. -/
theorem C1_validListMap_characterization_witness :
    validListMap 1 c1AGraph c1Items ["type"] = some [] :=
  (C1_validListMap_characterization c1AGraph 1 c1Items ["type"]
      (ATerminal.union c1Union) rfl).mpr
    (Or.inr ⟨c1Union, rfl, rfl, rfl⟩)

/-- The scope walk returns nothing exactly when no frame declares the
name. -/
theorem resolveNameWalk_eq_none (stack : List IdentFrame) (name : String) :
    resolveNameWalk stack name = none ↔ ∀ f ∈ stack, name ∉ f.inScope := by
  induction stack with
  | nil => simp [resolveNameWalk]
  | cons f rest ih =>
    by_cases hmem : name ∈ f.inScope
    · simp [resolveNameWalk, hmem]
    · simp [resolveNameWalk, hmem, ih]

/-- The scope walk resolves at the first frame declaring the name,
qualifying with the stack from that frame outward. -/
theorem resolveNameWalk_first_hit (pre : List IdentFrame) (f : IdentFrame)
    (post : List IdentFrame) (name : String) (hmem : name ∈ f.inScope)
    (hpre : ∀ g ∈ pre, name ∉ g.inScope) :
    resolveNameWalk (pre ++ f :: post) name =
      some (fullNameFor (f :: post) name) := by
  induction pre with
  | nil => simp [resolveNameWalk, hmem]
  | cons g rest ih =>
    have hg : name ∉ g.inScope := hpre g (List.mem_cons_self g rest)
    rw [List.cons_append]
    unfold resolveNameWalk
    rw [if_neg hg]
    exact ih fun x hx => hpre x (List.mem_cons_of_mem g hx)

/-- Appending a final segment to a nonempty join adds one separator. -/
theorem joinQual_append_singleton (xs : List String) (y : String)
    (hne : xs ≠ []) : joinQual (xs ++ [y]) = joinQual xs ++ "::" ++ y := by
  induction xs with
  | nil => cases hne rfl
  | cons x rest ih =>
    cases rest with
    | nil => simp [joinQual]
    | cons z zs =>
      have ihv := ih (by simp)
      have step1 : joinQual ((x :: z :: zs) ++ [y]) =
          x ++ "::" ++ joinQual ((z :: zs) ++ [y]) := rfl
      have step2 : joinQual (x :: z :: zs) = x ++ "::" ++ joinQual (z :: zs) := rfl
      rw [step1, ihv, step2]
      simp [String.append_assoc]

/-- A join of nonempty segments is nonempty. -/
theorem joinQual_ne_empty (xs : List String) (hne : xs ≠ [])
    (hall : ∀ x ∈ xs, x ≠ "") : joinQual xs ≠ "" := by
  cases xs with
  | nil => cases hne rfl
  | cons x rest =>
    cases rest with
    | nil => simpa [joinQual] using hall x (by simp)
    | cons y ys =>
      intro hcontra
      have hlen := congrArg String.length hcontra
      simp only [joinQual] at hlen
      rw [String.length_append, String.length_append] at hlen
      have h2 : ("::" : String).length = 2 := rfl
      simp [h2] at hlen

/-- `fullName` over a stack of nonempty scope names above the
group-version root is the `::`-join of those names, outermost first. -/
theorem fullName_join (scopes : List IdentFrame) (root : IdentFrame)
    (hroot : root.ident = "") (hall : ∀ g ∈ scopes, g.ident ≠ "") :
    fullName (scopes ++ [root]) =
      joinQual ((scopes.map IdentFrame.ident).reverse) := by
  induction scopes with
  | nil => simp [fullName, hroot, joinQual]
  | cons s rest ih =>
    cases rest with
    | nil => simp [fullName, hroot, joinQual]
    | cons s2 rest2 =>
      have h2 : s2.ident ≠ "" := hall s2 (by simp)
      have ihv := ih fun g hg => hall g (List.mem_cons_of_mem s hg)
      have step1 : fullName ((s :: s2 :: rest2) ++ [root]) =
          if s2.ident = "" then s.ident
          else fullName ((s2 :: rest2) ++ [root]) ++ "::" ++ s.ident := rfl
      rw [step1, if_neg h2, ihv]
      rw [show (List.map IdentFrame.ident (s :: s2 :: rest2)).reverse =
          (List.map IdentFrame.ident (s2 :: rest2)).reverse ++ [s.ident] by simp]
      rw [joinQual_append_singleton _ _ (by simp)]

/-- C6 amended: resolution of a bare identifier (no `::`) walks the scope
stack outward with the first declaring frame winning, and reports
"unresolvable identifier" exactly when no frame declares it; a name
containing `::` is returned unchanged with no diagnostic in the source
(shown by the counterexample), unlike the claim; and the fully qualified
name handed to a declaration is the `::`-join of its enclosing scope names
plus its own. -/
theorem C6_resolveName_characterization (stack : List IdentFrame)
    (name : String) (hb : hasPathSep name = false) :
    ((resolveName stack name).2 = [] ↔ ∃ f ∈ stack, name ∈ f.inScope) ∧
    ((∀ f ∈ stack, name ∉ f.inScope) →
      resolveName stack name = (name, [Diag.unresolvableIdentifier])) ∧
    (∀ pre f post, stack = pre ++ f :: post → name ∈ f.inScope →
      (∀ g ∈ pre, name ∉ g.inScope) →
      resolveName stack name = (fullNameFor (f :: post) name, [])) ∧
    (∀ scopes : List IdentFrame, ∀ root : IdentFrame, ∀ declName : String,
      root.ident = "" → (∀ g ∈ scopes, g.ident ≠ "") →
      qualifiedDeclName (scopes ++ [root]) declName =
        joinQual ((scopes.map IdentFrame.ident).reverse ++ [declName])) := by
  refine ⟨?_, ?_, ?_, ?_⟩
  · unfold resolveName
    rw [hb]
    simp only [Bool.false_eq_true, if_false]
    cases hwalk : resolveNameWalk stack name with
    | none =>
      simp only [List.cons_ne_nil, false_iff]
      intro ⟨f, hf, hmem⟩
      exact ((resolveNameWalk_eq_none stack name).mp hwalk) f hf hmem
    | some r =>
      simp only [true_iff]
      by_contra hnone
      push_neg at hnone
      have : resolveNameWalk stack name = none :=
        (resolveNameWalk_eq_none stack name).mpr fun f hf => hnone f hf
      rw [this] at hwalk
      cases hwalk
  · intro hnone
    unfold resolveName
    rw [hb]
    simp only [Bool.false_eq_true, if_false]
    rw [(resolveNameWalk_eq_none stack name).mpr hnone]
  · intro pre f post hstack hmem hpre
    unfold resolveName
    rw [hb]
    simp only [Bool.false_eq_true, if_false]
    rw [hstack, resolveNameWalk_first_hit pre f post name hmem hpre]
  · intro scopes root declName hroot hall
    unfold qualifiedDeclName fullNameFor
    rw [fullName_join scopes root hroot hall]
    cases hs : scopes with
    | nil => simp [joinQual]
    | cons s rest =>
      have hne : ((s :: rest).map IdentFrame.ident).reverse ≠ [] := by simp
      have hnonempty : joinQual (((s :: rest).map IdentFrame.ident).reverse) ≠ "" := by
        refine joinQual_ne_empty _ hne ?_
        intro x hx
        rw [List.mem_reverse, List.mem_map] at hx
        obtain ⟨g, hg, hgx⟩ := hx
        rw [← hgx]
        exact hall g (hs ▸ hg)
      rw [if_neg hnonempty]
      rw [joinQual_append_singleton _ _ hne]

/-- C6 amended, applied: inside kind `Pod` (which declares `Spec`), the
bare identifier `Spec` resolves to the qualified name built from the
stack at the declaring frame. -/
theorem C6_resolveName_characterization_witness :
    resolveName [⟨"Pod", ["Spec"]⟩, ⟨"", ["Pod"]⟩] "Spec" =
      (fullNameFor [⟨"Pod", ["Spec"]⟩, ⟨"", ["Pod"]⟩] "Spec", []) :=
  (C6_resolveName_characterization [⟨"Pod", ["Spec"]⟩, ⟨"", ["Pod"]⟩]
      "Spec" rfl).2.2.1
    [] ⟨"Pod", ["Spec"]⟩ [⟨"", ["Pod"]⟩] rfl (by decide) (by decide)

/-- The group-version root scope, declaring only `Pod`. -/
def c6RootStack : List IdentFrame := [⟨"", ["Pod"]⟩]

/-- C6 counterexample: the claim states that every unqualified path in a
modifier list is rewritten to the qualified name of the nearest declaring
scope, with an "unresolvable identifier" diagnostic exactly when no scope
declares it.  `resolveName` returns any name containing `::` unchanged
and records nothing: the unqualified path `Does::NotExist`, declared in no
scope, produces no diagnostic and is not rewritten. -/
theorem C6_path_bypasses_scope_walk :
    (∀ f ∈ c6RootStack, "Does::NotExist" ∉ f.inScope) ∧
    resolveName c6RootStack "Does::NotExist" = ("Does::NotExist", []) := by
  decide

end Kdlc
